import Mathlib

/-!
Shallow embedding of the accounting core of the Solana DeFi lending protocol
(`programs/solana-defi-lending-protocol/src`): the rate model and fixed-point
math from `math.rs`, the `Market` interest-accrual state transition and
`BorrowPosition` debt scaling from `state.rs`, and the market-level state
effect of the `supply`, `withdraw`, `borrow`, `repay` and `liquidate`
instruction handlers.  Machine integers are modelled as `Nat` with explicit
bound checks: Rust `checked_*` operations become `Except`-valued functions
failing with `MathOverflow`, and Rust `as uN` casts become `% 2^N`.
Signed 64-bit timestamps are modelled as `Int` with explicit range checks.
-/

namespace Lending

/-- 2^64, the modulus of Rust `u64`. -/
def U64_MOD : Nat := 18446744073709551616

/-- 2^128, the modulus of Rust `u128`. -/
def U128_MOD : Nat := 340282366920938463463374607431768211456

/-- 2^16, the modulus of Rust `u16`. -/
def U16_MOD : Nat := 65536

/-- 2^63, bound of Rust `i64`. -/
def I64_BOUND : Int := 9223372036854775808

-- Constants from `constants.rs`.

def BPS_SCALE : Nat := 10000

def INTEREST_SCALE : Nat := 1000000000000000000

def BASE_RATE_PER_SECOND : Nat := 634195839

def OPTIMAL_UTILIZATION_BPS : Nat := 8000

def SLOPE_1_PER_SECOND : Nat := 3170979196

def SLOPE_2_PER_SECOND : Nat := 31709791959

def PROTOCOL_FEE_BPS : Nat := 500

def LIQUIDATION_BONUS_BPS : Nat := 500

def MIN_HEALTH_FACTOR_BPS : Nat := 10000

def MIN_BORROW_AMOUNT : Nat := 10000000

def MIN_SUPPLY_AMOUNT : Nat := 100000000

/-- Error kinds from `errors.rs` (the constructors the modelled code paths
can produce, plus `TokenFailure` for a failing SPL token transfer/mint/burn,
which is an error of the external token program rather than a
`LendingError`). -/
inductive Err where
  | MathOverflow
  | InvalidAmount
  | InsufficientLiquidity
  | SlippageExceeded
  | InvalidUtilizationRate
  | MarketPaused
  | TokenFailure
deriving DecidableEq, Repr

/-- Rust `u64::checked_add` followed by `ok_or(MathOverflow)`. -/
def checkedAdd64 (a b : Nat) : Except Err Nat :=
  if a + b < U64_MOD then .ok (a + b) else .error .MathOverflow

/-- Rust `u128` `checked_mul` followed by `ok_or(MathOverflow)`. -/
def checkedMul128 (a b : Nat) : Except Err Nat :=
  if a * b < U128_MOD then .ok (a * b) else .error .MathOverflow

/-- Rust `u64` `checked_mul` followed by `ok_or(MathOverflow)`. -/
def checkedMul64 (a b : Nat) : Except Err Nat :=
  if a * b < U64_MOD then .ok (a * b) else .error .MathOverflow

/-- Rust `checked_div` followed by `ok_or(MathOverflow)`: fails only on a
zero divisor. -/
def checkedDiv (a b : Nat) : Except Err Nat :=
  if b = 0 then .error .MathOverflow else .ok (a / b)

/-- Rust `checked_sub` on unsigned integers followed by
`ok_or(MathOverflow)`: fails when the subtrahend exceeds the minuend. -/
def checkedSub (a b : Nat) : Except Err Nat :=
  if b ≤ a then .ok (a - b) else .error .MathOverflow

/-- Rust `i64::checked_sub` followed by `ok_or(MathOverflow)`: fails only
when the mathematical difference leaves the `i64` range (a negative result
inside the range is returned as `Some`). -/
def checkedSubI64 (a b : Int) : Except Err Int :=
  if -I64_BOUND ≤ a - b ∧ a - b < I64_BOUND then .ok (a - b)
  else .error .MathOverflow

/-- Rust `as u64` cast of an `i64` value: two's-complement reinterpretation,
i.e. reduction modulo 2^64. -/
def i64AsU64 (x : Int) : Nat := (x % (18446744073709551616 : Int)).toNat

-- `math.rs`

/-- `calculate_utilization_rate` from `math.rs`: `borrowed * 10000 /
supplied` in basis points, `0` when `supplied == 0`; the final `as u16`
cast reduces modulo 2^16. -/
def calculate_utilization_rate (total_borrowed total_supplied : Nat) :
    Except Err Nat :=
  if total_supplied = 0 then .ok 0
  else
    match checkedMul128 total_borrowed BPS_SCALE with
    | .error e => .error e
    | .ok u =>
      match checkedDiv u total_supplied with
      | .error e => .error e
      | .ok u => .ok (u % U16_MOD)

/-- `calculate_borrow_rate` from `math.rs`: kinked piecewise-linear rate
curve with kink at `OPTIMAL_UTILIZATION_BPS`; the `excess_rate as u64` cast
reduces modulo 2^64. -/
def calculate_borrow_rate (utilization_bps : Nat) : Except Err Nat :=
  if utilization_bps ≤ OPTIMAL_UTILIZATION_BPS then
    match checkedMul64 SLOPE_1_PER_SECOND utilization_bps with
    | .error e => .error e
    | .ok t =>
      match checkedDiv t OPTIMAL_UTILIZATION_BPS with
      | .error e => .error e
      | .ok t => checkedAdd64 BASE_RATE_PER_SECOND t
  else
    match checkedSub utilization_bps OPTIMAL_UTILIZATION_BPS with
    | .error e => .error e
    | .ok excess =>
      match checkedMul128 excess INTEREST_SCALE with
      | .error e => .error e
      | .ok r =>
        match checkedDiv r (BPS_SCALE - OPTIMAL_UTILIZATION_BPS) with
        | .error e => .error e
        | .ok r =>
          match checkedMul128 SLOPE_2_PER_SECOND r with
          | .error e => .error e
          | .ok er =>
            match checkedDiv er INTEREST_SCALE with
            | .error e => .error e
            | .ok er =>
              match checkedAdd64 BASE_RATE_PER_SECOND SLOPE_1_PER_SECOND with
              | .error e => .error e
              | .ok b => checkedAdd64 b (er % U64_MOD)

/-- `calculate_supply_rate` from `math.rs`: `borrow_rate * utilization *
(10000 - fee) / 10000 / 10000`, final `as u64` cast reduces modulo 2^64. -/
def calculate_supply_rate (borrow_rate utilization_bps : Nat) :
    Except Err Nat :=
  match checkedMul128 borrow_rate utilization_bps with
  | .error e => .error e
  | .ok s =>
    match checkedMul128 s (BPS_SCALE - PROTOCOL_FEE_BPS) with
    | .error e => .error e
    | .ok s =>
      match checkedDiv s BPS_SCALE with
      | .error e => .error e
      | .ok s =>
        match checkedDiv s BPS_SCALE with
        | .error e => .error e
        | .ok s => .ok (s % U64_MOD)

/-- `calculate_health_factor` from `math.rs`: `u16::MAX` when
`borrowed_value == 0`, otherwise `(collateral * threshold / 10000) * 10000
/ borrowed`; the final `as u16` cast reduces modulo 2^16. -/
def calculate_health_factor
    (collateral_value liquidation_threshold_bps borrowed_value : Nat) :
    Except Err Nat :=
  if borrowed_value = 0 then .ok 65535
  else
    match checkedMul128 collateral_value liquidation_threshold_bps with
    | .error e => .error e
    | .ok a =>
      match checkedDiv a BPS_SCALE with
      | .error e => .error e
      | .ok a =>
        match checkedMul128 a BPS_SCALE with
        | .error e => .error e
        | .ok h =>
          match checkedDiv h borrowed_value with
          | .error e => .error e
          | .ok h => .ok (h % U16_MOD)

/-- `calculate_liquidation_bonus` from `math.rs`: `amount *
LIQUIDATION_BONUS_BPS / 10000`, final `as u64` cast reduces modulo 2^64. -/
def calculate_liquidation_bonus (amount : Nat) : Except Err Nat :=
  match checkedMul128 amount LIQUIDATION_BONUS_BPS with
  | .error e => .error e
  | .ok b =>
    match checkedDiv b BPS_SCALE with
    | .error e => .error e
    | .ok b => .ok (b % U64_MOD)

/-- `calculate_exchange_rate` from `math.rs`: `total_supplied * SCALE /
total_supply_tokens`, or `SCALE` (1:1) when no supply tokens exist. -/
def calculate_exchange_rate (total_supplied total_supply_tokens : Nat) :
    Except Err Nat :=
  if total_supply_tokens = 0 then .ok INTEREST_SCALE
  else
    match checkedMul128 total_supplied INTEREST_SCALE with
    | .error e => .error e
    | .ok r => checkedDiv r total_supply_tokens

-- `state.rs`

/-- The numeric state of a lending `Market` from `state.rs` (identity
fields — pubkeys, bump seeds, ids — are omitted: no modelled code path
reads them). -/
structure Market where
  ltv_bps : Nat
  liquidation_threshold_bps : Nat
  total_supplied : Nat
  total_borrowed : Nat
  total_supply_tokens : Nat
  last_accrual_timestamp : Int
  cumulative_borrow_rate : Nat
  cumulative_supply_rate : Nat
  paused : Bool
deriving DecidableEq, Repr

/-- `Market::accrue_interest` from `state.rs`.  Faithful points: the
elapsed time is `clock.unix_timestamp.checked_sub(last).ok_or(...)? as
u64`, i.e. an `i64` checked subtraction (failing only on `i64` overflow,
not on a negative result) whose result is reinterpreted as `u64` modulo
2^64; the two cumulative rates are updated before the totals, the totals
are scaled by the full new cumulative rates, and the final `as u64` casts
on the totals reduce modulo 2^64.  The Rust `INTEREST_SCALE + factor` sum
is an unchecked `u128` `+`, which cannot wrap because `factor` is a
`u128` value already divided by `INTEREST_SCALE`. -/
def accrue_interest (m : Market) (now : Int) : Except Err Market :=
  if m.total_supplied = 0 ∧ m.total_borrowed = 0 then
    .ok { m with last_accrual_timestamp := now }
  else
    match checkedSubI64 now m.last_accrual_timestamp with
    | .error e => .error e
    | .ok d =>
      let seconds_elapsed := i64AsU64 d
      if seconds_elapsed = 0 then .ok m
      else
        match calculate_utilization_rate m.total_borrowed m.total_supplied with
        | .error e => .error e
        | .ok utilization_bps =>
          match calculate_borrow_rate utilization_bps with
          | .error e => .error e
          | .ok borrow_rate =>
            match calculate_supply_rate borrow_rate utilization_bps with
            | .error e => .error e
            | .ok supply_rate =>
              match checkedMul128 borrow_rate seconds_elapsed with
              | .error e => .error e
              | .ok bf =>
                match checkedDiv bf INTEREST_SCALE with
                | .error e => .error e
                | .ok bf =>
                  match checkedMul128 m.cumulative_borrow_rate
                      (INTEREST_SCALE + bf) with
                  | .error e => .error e
                  | .ok ncb =>
                    match checkedDiv ncb INTEREST_SCALE with
                    | .error e => .error e
                    | .ok ncb =>
                      match checkedMul128 supply_rate seconds_elapsed with
                      | .error e => .error e
                      | .ok sf =>
                        match checkedDiv sf INTEREST_SCALE with
                        | .error e => .error e
                        | .ok sf =>
                          match checkedMul128 m.cumulative_supply_rate
                              (INTEREST_SCALE + sf) with
                          | .error e => .error e
                          | .ok ncs =>
                            match checkedDiv ncs INTEREST_SCALE with
                            | .error e => .error e
                            | .ok ncs =>
                              match checkedMul128 m.total_borrowed ncb with
                              | .error e => .error e
                              | .ok tb =>
                                match checkedDiv tb INTEREST_SCALE with
                                | .error e => .error e
                                | .ok tb =>
                                  match checkedMul128 m.total_supplied ncs with
                                  | .error e => .error e
                                  | .ok ts =>
                                    match checkedDiv ts INTEREST_SCALE with
                                    | .error e => .error e
                                    | .ok ts =>
                                      .ok { m with
                                        cumulative_borrow_rate := ncb,
                                        cumulative_supply_rate := ncs,
                                        total_borrowed := tb % U64_MOD,
                                        total_supplied := ts % U64_MOD,
                                        last_accrual_timestamp := now }

/-- The numeric state of a `BorrowPosition` from `state.rs` (identity
fields and timestamps omitted: `calculate_debt` does not read them). -/
structure BorrowPosition where
  borrowed_amount : Nat
  cumulative_borrow_rate_snapshot : Nat
deriving DecidableEq, Repr

/-- `BorrowPosition::calculate_debt` from `state.rs`: `principal *
market.cumulative_borrow_rate / snapshot` in `u128`, with the final
`as u64` cast reducing modulo 2^64. -/
def BorrowPosition.calculate_debt (p : BorrowPosition) (m : Market) :
    Except Err Nat :=
  match checkedMul128 p.borrowed_amount m.cumulative_borrow_rate with
  | .error e => .error e
  | .ok d =>
    match checkedDiv d p.cumulative_borrow_rate_snapshot with
    | .error e => .error e
    | .ok d => .ok (d % U64_MOD)

-- Remaining constants from `constants.rs` used by `Market::initialize`.

def MAX_LTV_BPS : Nat := 8000

def MIN_LIQUIDATION_THRESHOLD_BPS : Nat := 8000

/-- The three market-creation validation errors from `errors.rs` raised by
`Market::initialize`. -/
inductive ConfigErr where
  | LiquidationThresholdTooLow
  | InvalidLtvRatio
  | InvalidLiquidationThreshold
deriving DecidableEq, Repr

/-- `Market::initialize` (validation plus the initial field assignment). -/
def initMarket (ltv_bps liquidation_threshold_bps : Nat) (t : Int) :
    Except ConfigErr Market :=
  if ¬ ltv_bps < liquidation_threshold_bps then
    .error .LiquidationThresholdTooLow
  else if ¬ ltv_bps ≤ MAX_LTV_BPS then .error .InvalidLtvRatio
  else if ¬ MIN_LIQUIDATION_THRESHOLD_BPS ≤ liquidation_threshold_bps then
    .error .InvalidLiquidationThreshold
  else .ok {
    ltv_bps := ltv_bps,
    liquidation_threshold_bps := liquidation_threshold_bps,
    total_supplied := 0,
    total_borrowed := 0,
    total_supply_tokens := 0,
    last_accrual_timestamp := t,
    cumulative_borrow_rate := INTEREST_SCALE,
    cumulative_supply_rate := INTEREST_SCALE,
    paused := false }

/-- A market together with the token balance of its reserve vault.  The
vault is an SPL token account: a transfer into it fails when the `u64`
balance would overflow, a transfer out of it fails when the balance is
insufficient. -/
structure LState where
  market : Market
  vault : Nat
deriving DecidableEq, Repr

/-- `supply::handler` state effect.  Order as in the source (with Anchor's
`!market.paused` account constraint first): amount floor check, accrual,
transfer user→vault, exchange rate (1:1 when no supply tokens exist),
supply tokens minted = `amount * SCALE / rate` (`as u64`), totals updated
with checked adds.  Returns the new state and the minted supply tokens. -/
def supplyH (st : LState) (now : Int) (amount : Nat) :
    Except Err (LState × Nat) :=
  if st.market.paused then .error .MarketPaused
  else if ¬ MIN_SUPPLY_AMOUNT ≤ amount then .error .InvalidAmount
  else
    match accrue_interest st.market now with
    | .error e => .error e
    | .ok m1 =>
      if st.vault + amount < U64_MOD then
        let er0 : Except Err Nat :=
          if m1.total_supply_tokens = 0 then .ok INTEREST_SCALE
          else calculate_exchange_rate m1.total_supplied m1.total_supply_tokens
        match er0 with
        | .error e => .error e
        | .ok er =>
          match checkedMul128 amount INTEREST_SCALE with
          | .error e => .error e
          | .ok t =>
            match checkedDiv t er with
            | .error e => .error e
            | .ok t =>
              let supply_tokens := t % U64_MOD
              match checkedAdd64 m1.total_supplied amount with
              | .error e => .error e
              | .ok s2 =>
                match checkedAdd64 m1.total_supply_tokens supply_tokens with
                | .error e => .error e
                | .ok t2 =>
                  .ok (⟨{ m1 with
                            total_supplied := s2
                            total_supply_tokens := t2 },
                        st.vault + amount⟩, supply_tokens)
      else .error .TokenFailure

/-- `withdraw::handler` state effect: positive-shares check, accrual,
exchange rate, underlying = `shares * rate / SCALE` (`as u64`), liquidity
check against the vault, burn, transfer vault→user, checked subtraction of
both totals.  Returns the new state and the withdrawn underlying amount. -/
def withdrawH (st : LState) (now : Int) (supply_tokens : Nat) :
    Except Err (LState × Nat) :=
  if supply_tokens = 0 then .error .InvalidAmount
  else
    match accrue_interest st.market now with
    | .error e => .error e
    | .ok m1 =>
      match calculate_exchange_rate m1.total_supplied m1.total_supply_tokens with
      | .error e => .error e
      | .ok er =>
        match checkedMul128 supply_tokens er with
        | .error e => .error e
        | .ok w =>
          match checkedDiv w INTEREST_SCALE with
          | .error e => .error e
          | .ok w =>
            let withdraw_amount := w % U64_MOD
            if ¬ withdraw_amount ≤ st.vault then
              .error .InsufficientLiquidity
            else
              match checkedSub m1.total_supplied withdraw_amount with
              | .error e => .error e
              | .ok s2 =>
                match checkedSub m1.total_supply_tokens supply_tokens with
                | .error e => .error e
                | .ok t2 =>
                  .ok (⟨{ m1 with
                            total_supplied := s2
                            total_supply_tokens := t2 },
                        st.vault - withdraw_amount⟩, withdraw_amount)

/-- `borrow::handler` state effect: paused constraint, amount floor check,
accrual, liquidity check, checked add to `total_borrowed`, utilization
cap `≤ 10000`, transfer vault→user. -/
def borrowH (st : LState) (now : Int) (amount : Nat) :
    Except Err LState :=
  if st.market.paused then .error .MarketPaused
  else if ¬ MIN_BORROW_AMOUNT ≤ amount then .error .InvalidAmount
  else
    match accrue_interest st.market now with
    | .error e => .error e
    | .ok m1 =>
      if ¬ amount ≤ st.vault then .error .InsufficientLiquidity
      else
        match checkedAdd64 m1.total_borrowed amount with
        | .error e => .error e
        | .ok ntb =>
          match calculate_utilization_rate ntb m1.total_supplied with
          | .error e => .error e
          | .ok u =>
            if ¬ u ≤ 10000 then .error .InvalidUtilizationRate
            else
              .ok ⟨{ m1 with total_borrowed := ntb }, st.vault - amount⟩

/-- `repay::handler` state effect: positive-amount check, accrual,
transfer user→vault, checked subtraction from `total_borrowed`. -/
def repayH (st : LState) (now : Int) (amount : Nat) :
    Except Err LState :=
  if amount = 0 then .error .InvalidAmount
  else
    match accrue_interest st.market now with
    | .error e => .error e
    | .ok m1 =>
      if st.vault + amount < U64_MOD then
        match checkedSub m1.total_borrowed amount with
        | .error e => .error e
        | .ok b2 =>
          .ok ⟨{ m1 with total_borrowed := b2 }, st.vault + amount⟩
      else .error .TokenFailure

/-- `liquidate::handler` state effect over the debt market and the
collateral market: positive repay check, accrual on both markets, transfer
of the repayment into the debt market's vault, collateral seized =
`repay + calculate_liquidation_bonus repay` (1:1 pricing), slippage floor
check (`SlippageExceeded`), transfer of the collateral out of the
collateral market's vault, checked subtraction of the repay from the debt
market's `total_borrowed` and of the collateral from the collateral
market's `total_supplied`. -/
def liquidateH (bst cst : LState) (now : Int)
    (repay_amount min_collateral_amount : Nat) :
    Except Err (LState × LState) :=
  if repay_amount = 0 then .error .InvalidAmount
  else
    match accrue_interest bst.market now with
    | .error e => .error e
    | .ok bm1 =>
      match accrue_interest cst.market now with
      | .error e => .error e
      | .ok cm1 =>
        if bst.vault + repay_amount < U64_MOD then
          match calculate_liquidation_bonus repay_amount with
          | .error e => .error e
          | .ok bonus =>
            match checkedAdd64 repay_amount bonus with
            | .error e => .error e
            | .ok collateral_amount =>
              if ¬ min_collateral_amount ≤ collateral_amount then
                .error .SlippageExceeded
              else if ¬ collateral_amount ≤ cst.vault then
                .error .TokenFailure
              else
                match checkedSub bm1.total_borrowed repay_amount with
                | .error e => .error e
                | .ok b2 =>
                  match checkedSub cm1.total_supplied collateral_amount with
                  | .error e => .error e
                  | .ok s2 =>
                    .ok (⟨{ bm1 with total_borrowed := b2 },
                          bst.vault + repay_amount⟩,
                         ⟨{ cm1 with total_supplied := s2 },
                          cst.vault - collateral_amount⟩)
        else .error .TokenFailure

/-- Calling `accrue_interest` at the market's own `last_accrual_timestamp`
is a no-op: either both totals are zero and the timestamp is re-stamped
with the same value, or the elapsed time is zero and the function returns
early. -/
theorem accrue_last (m : Market) :
    accrue_interest m m.last_accrual_timestamp = .ok m := by
  unfold accrue_interest
  split
  · rfl
  · simp [checkedSubI64, i64AsU64, I64_BOUND]

theorem checkedAdd64_eq_ok {a b c : Nat} :
    checkedAdd64 a b = .ok c ↔ a + b < U64_MOD ∧ c = a + b := by
  unfold checkedAdd64; split <;> simp_all [eq_comm]

theorem checkedSub_eq_ok {a b c : Nat} :
    checkedSub a b = .ok c ↔ b ≤ a ∧ c = a - b := by
  unfold checkedSub; split <;> simp_all [eq_comm]

theorem checkedMul128_eq_ok {a b c : Nat} :
    checkedMul128 a b = .ok c ↔ a * b < U128_MOD ∧ c = a * b := by
  unfold checkedMul128; split <;> simp_all [eq_comm]

theorem checkedMul64_eq_ok {a b c : Nat} :
    checkedMul64 a b = .ok c ↔ a * b < U64_MOD ∧ c = a * b := by
  unfold checkedMul64; split <;> simp_all [eq_comm]

theorem checkedDiv_eq_ok {a b c : Nat} :
    checkedDiv a b = .ok c ↔ b ≠ 0 ∧ c = a / b := by
  unfold checkedDiv; split <;> simp_all [eq_comm]

theorem checkedSubI64_eq_ok {a b c : Int} :
    checkedSubI64 a b = .ok c ↔
      (-I64_BOUND ≤ a - b ∧ a - b < I64_BOUND) ∧ c = a - b := by
  unfold checkedSubI64; split <;> simp_all [eq_comm]

/-- One state-changing operation on a market, performed at the market's
current `last_accrual_timestamp` (so that no interest accrues).  The two
liquidation constructors let the market under scrutiny play either role of
`liquidate::handler`; the other market involved is arbitrary. -/
inductive StepCT : LState → LState → Prop where
  | accrue (st : LState) : StepCT st st
  | supply (st st' : LState) (a mt : Nat) :
      supplyH st st.market.last_accrual_timestamp a = .ok (st', mt) →
      StepCT st st'
  | withdraw (st st' : LState) (x w : Nat) :
      withdrawH st st.market.last_accrual_timestamp x = .ok (st', w) →
      StepCT st st'
  | borrow (st st' : LState) (a : Nat) :
      borrowH st st.market.last_accrual_timestamp a = .ok st' →
      StepCT st st'
  | repay (st st' : LState) (a : Nat) :
      repayH st st.market.last_accrual_timestamp a = .ok st' →
      StepCT st st'
  | liqDebt (st other st' other' : LState) (r mc : Nat) :
      liquidateH st other st.market.last_accrual_timestamp r mc =
        .ok (st', other') →
      StepCT st st'
  | liqColl (other st other' st' : LState) (r mc : Nat) :
      liquidateH other st st.market.last_accrual_timestamp r mc =
        .ok (other', st') →
      StepCT st st'

/-- Market states reachable from `Market::initialize` (with an empty
reserve vault) by operations that do not let time elapse. -/
inductive ReachableCT : LState → Prop where
  | init (ltv th : Nat) (t : Int) (m : Market) :
      initMarket ltv th t = .ok m → ReachableCT ⟨m, 0⟩
  | step (st st' : LState) : ReachableCT st → StepCT st st' → ReachableCT st'

/-- The bookkeeping identity that yields solvency: the reserve vault holds
exactly the supplied-but-not-borrowed balance. -/
def SolventInv (st : LState) : Prop :=
  st.vault + st.market.total_borrowed = st.market.total_supplied

/-- Every constant-time operation preserves the vault bookkeeping
identity. -/
theorem solvent_preserved {st st' : LState} (h : StepCT st st')
    (hI : SolventInv st) : SolventInv st' := by
  unfold SolventInv at *
  cases h with
  | accrue => exact hI
  | supply st st' a mt h =>
      unfold supplyH at h
      rw [accrue_last] at h
      simp only [] at h
      repeat' (split at h)
      all_goals cases h
      simp only [checkedAdd64_eq_ok, checkedSub_eq_ok, checkedMul128_eq_ok,
        checkedDiv_eq_ok] at *
      try dsimp only
      omega
  | withdraw st st' x w h =>
      unfold withdrawH at h
      rw [accrue_last] at h
      simp only [] at h
      repeat' (split at h)
      all_goals cases h
      simp only [checkedAdd64_eq_ok, checkedSub_eq_ok, checkedMul128_eq_ok,
        checkedDiv_eq_ok] at *
      try dsimp only
      omega
  | borrow st st' a h =>
      unfold borrowH at h
      rw [accrue_last] at h
      simp only [] at h
      repeat' (split at h)
      all_goals cases h
      simp only [checkedAdd64_eq_ok, checkedSub_eq_ok, checkedMul128_eq_ok,
        checkedDiv_eq_ok] at *
      try dsimp only
      omega
  | repay st st' a h =>
      unfold repayH at h
      rw [accrue_last] at h
      simp only [] at h
      repeat' (split at h)
      all_goals cases h
      simp only [checkedAdd64_eq_ok, checkedSub_eq_ok, checkedMul128_eq_ok,
        checkedDiv_eq_ok] at *
      try dsimp only
      omega
  | liqDebt st other st' other' r mc h =>
      unfold liquidateH at h
      rw [accrue_last] at h
      simp only [] at h
      repeat' (split at h)
      all_goals cases h
      simp only [checkedAdd64_eq_ok, checkedSub_eq_ok, checkedMul128_eq_ok,
        checkedDiv_eq_ok] at *
      try dsimp only
      omega
  | liqColl other st other' st' r mc h =>
      unfold liquidateH at h
      rw [accrue_last] at h
      simp only [] at h
      repeat' (split at h)
      all_goals cases h
      simp only [checkedAdd64_eq_ok, checkedSub_eq_ok, checkedMul128_eq_ok,
        checkedDiv_eq_ok] at *
      try dsimp only
      omega

/-- Every constant-time-reachable state satisfies the vault bookkeeping
identity. -/
theorem reachable_solvent (st : LState) (h : ReachableCT st) :
    SolventInv st := by
  induction h with
  | init ltv th t m hm =>
      unfold initMarket at hm
      repeat' (split at hm)
      all_goals cases hm
      rfl
  | step st st' hr hs ih => exact solvent_preserved hs ih

-- Concrete states for the C1 analysis: a fresh market, one supply of
-- 10^18 units, one borrow of 10^18 units (utilization exactly 100%), then
-- one interest accrual 29000000 seconds later.

def c1Start : LState :=
  ⟨⟨7500, 8500, 0, 0, 0, 0, INTEREST_SCALE, INTEREST_SCALE, false⟩, 0⟩

def c1AfterSupply : LState :=
  ⟨⟨7500, 8500, 1000000000000000000, 0, 1000000000000000000, 0,
    INTEREST_SCALE, INTEREST_SCALE, false⟩, 1000000000000000000⟩

def c1AfterBorrow : LState :=
  ⟨⟨7500, 8500, 1000000000000000000, 1000000000000000000,
    1000000000000000000, 0, INTEREST_SCALE, INTEREST_SCALE, false⟩, 0⟩

def c1Final : Market :=
  ⟨7500, 8500, 1000000000000000000, 1000000000000000001,
    1000000000000000000, 29000000, 1000000000000000001,
    1000000000000000000, false⟩

/-- C1, counterexample.  The claimed invariant `total_supplied ≥
total_borrowed` fails on a reachable state: create a market at time 0,
supply 10^18, borrow 10^18 (utilization check `≤ 10000` passes), then
accrue at time 29000000.  Over that interval the borrow-side interest
factor is `⌊35514966994 * 29000000 / 10^18⌋ = 1` while the supply-side
factor is `⌊33739218644 * 29000000 / 10^18⌋ = 0`, so accrual sets
`total_borrowed = 10^18 + 1 > 10^18 = total_supplied`. -/
theorem C1_solvency_counterexample :
    initMarket 7500 8500 0 = .ok c1Start.market ∧
    supplyH c1Start 0 1000000000000000000 =
      .ok (c1AfterSupply, 1000000000000000000) ∧
    borrowH c1AfterSupply 0 1000000000000000000 = .ok c1AfterBorrow ∧
    accrue_interest c1AfterBorrow.market 29000000 = .ok c1Final ∧
    c1Final.total_supplied < c1Final.total_borrowed :=
  ⟨rfl, rfl, rfl, rfl, by norm_num [c1Final]⟩

/-- C1 (amended): the solvency invariant `total_borrowed ≤ total_supplied`
does hold on every state reachable from market creation by successful
supply, borrow, repay, withdraw, liquidate and accrue operations that run
at the market's current `last_accrual_timestamp` (no interest accrues);
the original claim fails only because an accrual over positive elapsed
time lets the borrow index outgrow the supply index
(`C1_solvency_counterexample`). -/
theorem C1_solvency_constant_time (st : LState) (h : ReachableCT st) :
    st.market.total_borrowed ≤ st.market.total_supplied := by
  have hI := reachable_solvent st h
  unfold SolventInv at hI
  omega

/-- C1 witness: the amended theorem applied to the concrete reachable
state obtained by creating a market and supplying 10^18 units. -/
theorem C1_solvency_constant_time_witness :
    c1AfterSupply.market.total_borrowed ≤
      c1AfterSupply.market.total_supplied :=
  C1_solvency_constant_time c1AfterSupply
    (ReachableCT.step c1Start c1AfterSupply
      (ReachableCT.init 7500 8500 0 c1Start.market rfl)
      (StepCT.supply c1Start c1AfterSupply 1000000000000000000
        1000000000000000000 rfl))

def c2Market : Market :=
  ⟨7500, 8500, 1000000000, 0, 1000000000, 1000, INTEREST_SCALE,
    INTEREST_SCALE, false⟩

def c2After : Market :=
  ⟨7500, 8500, 1000000000, 0, 1000000000, 999, 1000000011698848334,
    INTEREST_SCALE, false⟩

/-- C2, code-bug evidence.  With `total_supplied > 0` and a clock reading
one second EARLIER than `last_accrual_timestamp`, `accrue_interest` does
not return an error: `i64::checked_sub` yields `-1` (it fails only on
`i64` overflow, not on a negative difference), the `as u64` cast
reinterprets it as `2^64 - 1` seconds, and the call succeeds — inflating
`cumulative_borrow_rate` by interest for 2^64 - 1 seconds and moving
`last_accrual_timestamp` backwards — where the specification requires a
clock regression to be rejected with the market left unchanged. -/
theorem C2_clock_regression_not_rejected :
    accrue_interest c2Market 999 = .ok c2After ∧
    c2After ≠ c2Market ∧
    c2After.last_accrual_timestamp < c2Market.last_accrual_timestamp ∧
    c2Market.cumulative_borrow_rate < c2After.cumulative_borrow_rate :=
  ⟨rfl, by decide, by decide, by decide⟩

/-- A successful `accrue_interest` always leaves `last_accrual_timestamp`
equal to the clock it was called with (in the zero-elapsed early return,
the cast elapsed value can only be zero when the clock equals the stored
timestamp, because the checked `i64` difference is range-bounded). -/
theorem accrue_ok_last {m : Market} {t : Int} {m2 : Market}
    (h : accrue_interest m t = .ok m2) : m2.last_accrual_timestamp = t := by
  unfold accrue_interest at h
  simp only [] at h
  repeat' (split at h)
  all_goals cases h
  · rfl
  · rename_i hd hzero
    rw [checkedSubI64_eq_ok] at hd
    simp only [i64AsU64, I64_BOUND] at hzero hd
    omega
  · rfl

/-- C9: accrual is idempotent — running `accrue_interest` twice with the
same timestamp gives exactly the state after the first run (the second
call sees zero elapsed time, or re-stamps the identical timestamp on an
empty market, and changes no field). -/
theorem C9_accrual_idempotent (m : Market) (t : Int) :
    (accrue_interest m t).bind (fun m2 => accrue_interest m2 t) =
      accrue_interest m t := by
  cases hac : accrue_interest m t with
  | error e => rfl
  | ok m2 =>
      have hlast : m2.last_accrual_timestamp = t := accrue_ok_last hac
      show accrue_interest m2 t = .ok m2
      rw [← hlast]
      exact accrue_last m2

/-- C9 witness: the idempotence theorem instantiated at a concrete market
and timestamp. -/
theorem C9_accrual_idempotent_witness :
    (accrue_interest c2Market 2000).bind
        (fun m2 => accrue_interest m2 2000) =
      accrue_interest c2Market 2000 :=
  C9_accrual_idempotent c2Market 2000

theorem checkedMul128_ok_of (a b : Nat) (h : a * b < U128_MOD) :
    checkedMul128 a b = .ok (a * b) := by
  unfold checkedMul128; rw [if_pos h]

theorem checkedMul64_ok_of (a b : Nat) (h : a * b < U64_MOD) :
    checkedMul64 a b = .ok (a * b) := by
  unfold checkedMul64; rw [if_pos h]

theorem checkedAdd64_ok_of (a b : Nat) (h : a + b < U64_MOD) :
    checkedAdd64 a b = .ok (a + b) := by
  unfold checkedAdd64; rw [if_pos h]

theorem checkedDiv_ok_of (a b : Nat) (h : b ≠ 0) :
    checkedDiv a b = .ok (a / b) := by
  unfold checkedDiv; rw [if_neg h]

theorem checkedSub_ok_of (a b : Nat) (h : b ≤ a) :
    checkedSub a b = .ok (a - b) := by
  unfold checkedSub; rw [if_pos h]

-- C4: health factor

def c4Collateral : Nat := 70536

/-- C4, counterexample.  `calculate_health_factor` truncates its `u128`
quotient with an `as u16` cast: at collateral 70536, threshold 10000 bps,
borrowed 10000, the claimed value `⌊⌊70536 * 10000 / 10000⌋ * 10000 /
10000⌋ = 70536` exceeds `u16::MAX` and the function returns `70536 mod
2^16 = 5000` instead — which is `< 10000`, so a position the claim calls
healthy is reported liquidatable. -/
theorem C4_health_factor_counterexample :
    calculate_health_factor c4Collateral 10000 10000 = .ok 5000 ∧
    c4Collateral * 10000 / 10000 * 10000 / 10000 = 70536 ∧
    (5000 : Nat) ≠ 70536 ∧ (5000 : Nat) < 10000 ∧ ¬ (70536 : Nat) < 10000 :=
  ⟨rfl, by norm_num [c4Collateral], by norm_num, by norm_num, by norm_num⟩

/-- C4 (amended): for `u64`/`u16`-ranged inputs, `calculate_health_factor`
returns `u16::MAX = 65535` when `borrowed_value = 0`, and otherwise
`⌊⌊collateral * threshold / 10000⌋ * 10000 / borrowed⌋` reduced modulo
2^16 (the `as u16` cast) — not the untruncated quotient the claim states;
the threshold comparison itself is unchanged: a value is below
`MIN_HEALTH_FACTOR_BPS` exactly when it is `< 10000`. -/
theorem C4_health_factor_amended (c t b : Nat) (hc : c < U64_MOD)
    (ht : t < U16_MOD) :
    calculate_health_factor c t 0 = .ok 65535 ∧
    (b ≠ 0 →
      calculate_health_factor c t b =
        .ok ((c * t / BPS_SCALE * BPS_SCALE / b) % U16_MOD)) ∧
    (∀ hf : Nat, hf < MIN_HEALTH_FACTOR_BPS ↔ hf < 10000) := by
  have h1 : c * t < U128_MOD := by
    calc c * t < U64_MOD * U16_MOD := by
          exact Nat.mul_lt_mul_of_lt_of_lt hc ht
      _ < U128_MOD := by norm_num [U64_MOD, U16_MOD, U128_MOD]
  have h2 : c * t / BPS_SCALE * BPS_SCALE < U128_MOD :=
    lt_of_le_of_lt (Nat.div_mul_le_self _ _) h1
  refine ⟨rfl, fun hb => ?_, fun hf => Iff.rfl⟩
  simp only [calculate_health_factor]
  rw [if_neg hb, checkedMul128_ok_of c t h1]
  simp only []
  rw [checkedDiv_ok_of _ _ (by norm_num [BPS_SCALE])]
  simp only []
  rw [checkedMul128_ok_of _ _ h2]
  simp only []
  rw [checkedDiv_ok_of _ _ hb]

/-- C4 witness: the amended theorem at the counterexample inputs. -/
theorem C4_health_factor_amended_witness :
    calculate_health_factor 70536 10000 0 = .ok 65535 ∧
    ((10000 : Nat) ≠ 0 →
      calculate_health_factor 70536 10000 10000 =
        .ok ((70536 * 10000 / BPS_SCALE * BPS_SCALE / 10000) % U16_MOD)) ∧
    (∀ hf : Nat, hf < MIN_HEALTH_FACTOR_BPS ↔ hf < 10000) :=
  C4_health_factor_amended 70536 10000 10000 (by norm_num [U64_MOD])
    (by norm_num [U16_MOD])

-- C5: liquidation bonus and slippage floor

/-- A debt-market state used to exercise `liquidate::handler` concretely. -/
def c5Debt : LState :=
  ⟨⟨7500, 8500, 2000000, 1500000, 2000000, 0, INTEREST_SCALE,
    INTEREST_SCALE, false⟩, 2000000⟩

/-- A collateral-market state used to exercise `liquidate::handler`
concretely. -/
def c5Coll : LState :=
  ⟨⟨7500, 8500, 2000000, 0, 2000000, 0, INTEREST_SCALE, INTEREST_SCALE,
    false⟩, 2000000⟩

/-- C5: the liquidation bonus is `⌊repay * LIQUIDATION_BONUS_BPS /
10000⌋` for every `u64` repay amount; concretely `repay = 1000000` gives
bonus `50000`, so collateral seized is `1050000`; and whenever the seized
collateral is below the caller's `min_collateral_amount`, the liquidate
handler fails with `SlippageExceeded` (in the `Except` model an error
applies no state change), e.g. with floor `1060000`. -/
theorem C5_liquidation_bonus_slippage (r : Nat) (hr : r < U64_MOD) :
    calculate_liquidation_bonus r =
      .ok (r * LIQUIDATION_BONUS_BPS / BPS_SCALE) ∧
    calculate_liquidation_bonus 1000000 = .ok 50000 ∧
    checkedAdd64 1000000 50000 = .ok 1050000 ∧
    (∀ bst cst : LState, ∀ now : Int, ∀ rp mc : Nat, ∀ bm1 cm1 : Market,
      ∀ bo col : Nat,
      rp ≠ 0 → accrue_interest bst.market now = .ok bm1 →
      accrue_interest cst.market now = .ok cm1 →
      bst.vault + rp < U64_MOD →
      calculate_liquidation_bonus rp = .ok bo →
      checkedAdd64 rp bo = .ok col →
      col < mc →
      liquidateH bst cst now rp mc = .error .SlippageExceeded) ∧
    liquidateH c5Debt c5Coll 0 1000000 1060000 = .error .SlippageExceeded := by
  have hb : r * LIQUIDATION_BONUS_BPS < U128_MOD := by
    calc r * LIQUIDATION_BONUS_BPS < U64_MOD * U16_MOD := by
          exact Nat.mul_lt_mul_of_lt_of_lt hr (by norm_num [LIQUIDATION_BONUS_BPS, U16_MOD])
      _ < U128_MOD := by norm_num [U64_MOD, U16_MOD, U128_MOD]
  have hle : r * LIQUIDATION_BONUS_BPS / BPS_SCALE < U64_MOD := by
    have : r * LIQUIDATION_BONUS_BPS / BPS_SCALE ≤ r := by
      calc r * LIQUIDATION_BONUS_BPS / BPS_SCALE
          ≤ r * BPS_SCALE / BPS_SCALE := by
            exact Nat.div_le_div_right (Nat.mul_le_mul_left _ (by norm_num [LIQUIDATION_BONUS_BPS, BPS_SCALE]))
        _ = r := Nat.mul_div_cancel _ (by norm_num [BPS_SCALE])
    omega
  refine ⟨?_, rfl, rfl, ?_, rfl⟩
  · simp only [calculate_liquidation_bonus]
    rw [checkedMul128_ok_of _ _ hb]
    simp only []
    rw [checkedDiv_ok_of _ _ (by norm_num [BPS_SCALE])]
    simp only []
    rw [Nat.mod_eq_of_lt hle]
  · intro bst cst now rp mc bm1 cm1 bo col hrp haccB haccC hvault hbo hcol hlt
    simp only [liquidateH]
    rw [if_neg hrp, haccB]
    simp only []
    rw [haccC]
    simp only []
    rw [if_pos hvault, hbo]
    simp only []
    rw [hcol]
    simp only []
    rw [if_pos (not_le.mpr hlt)]

/-- C5 witness: the theorem instantiated at `repay = 1000000`. -/
theorem C5_liquidation_bonus_slippage_witness :
    calculate_liquidation_bonus 1000000 =
      .ok (1000000 * LIQUIDATION_BONUS_BPS / BPS_SCALE) ∧
    calculate_liquidation_bonus 1000000 = .ok 50000 ∧
    checkedAdd64 1000000 50000 = .ok 1050000 ∧
    (∀ bst cst : LState, ∀ now : Int, ∀ rp mc : Nat, ∀ bm1 cm1 : Market,
      ∀ bo col : Nat,
      rp ≠ 0 → accrue_interest bst.market now = .ok bm1 →
      accrue_interest cst.market now = .ok cm1 →
      bst.vault + rp < U64_MOD →
      calculate_liquidation_bonus rp = .ok bo →
      checkedAdd64 rp bo = .ok col →
      col < mc →
      liquidateH bst cst now rp mc = .error .SlippageExceeded) ∧
    liquidateH c5Debt c5Coll 0 1000000 1060000 = .error .SlippageExceeded :=
  C5_liquidation_bonus_slippage 1000000 (by norm_num [U64_MOD])

-- C6: debt scaling

def c6Market : Market :=
  ⟨7500, 8500, 0, 0, 0, 0, 2000000000000000000, INTEREST_SCALE, false⟩

def c6Pos : BorrowPosition :=
  ⟨9223372036854775808, 1000000000000000000⟩

/-- C6, counterexample.  `calculate_debt` truncates its `u128` quotient
with an `as u64` cast: principal `2^63`, snapshot `SCALE`, current index
`2 * SCALE` give the claimed value `2^64`, but the function returns
`2^64 mod 2^64 = 0` — which is also smaller than the principal even
though the index grew, contradicting both parts of the claim. -/
theorem C6_debt_scaling_counterexample :
    c6Pos.calculate_debt c6Market = .ok 0 ∧
    c6Pos.borrowed_amount * c6Market.cumulative_borrow_rate /
        c6Pos.cumulative_borrow_rate_snapshot = 18446744073709551616 ∧
    (0 : Nat) ≠ 18446744073709551616 ∧
    c6Pos.cumulative_borrow_rate_snapshot ≤
      c6Market.cumulative_borrow_rate ∧
    (0 : Nat) < c6Pos.borrowed_amount :=
  ⟨rfl, by norm_num [c6Pos, c6Market], by norm_num,
    by norm_num [c6Pos, c6Market], by norm_num [c6Pos]⟩

/-- C6 (amended): with a nonzero snapshot and a non-overflowing `u128`
product, `calculate_debt` returns `⌊principal * cumulative_borrow_index /
snapshot⌋` reduced modulo 2^64 (the `as u64` cast); whenever the index is
at least the snapshot AND the quotient fits in `u64`, the result is at
least the principal; and the claim's concrete case (principal 1000000,
snapshot `SCALE`, index `2 * SCALE`) yields 2000000. -/
theorem C6_debt_scaling_amended (p : BorrowPosition) (m : Market)
    (hsnap : p.cumulative_borrow_rate_snapshot ≠ 0)
    (hmul : p.borrowed_amount * m.cumulative_borrow_rate < U128_MOD) :
    p.calculate_debt m =
      .ok ((p.borrowed_amount * m.cumulative_borrow_rate /
            p.cumulative_borrow_rate_snapshot) % U64_MOD) ∧
    (p.cumulative_borrow_rate_snapshot ≤ m.cumulative_borrow_rate →
      p.borrowed_amount * m.cumulative_borrow_rate /
          p.cumulative_borrow_rate_snapshot < U64_MOD →
      p.borrowed_amount ≤
        p.borrowed_amount * m.cumulative_borrow_rate /
            p.cumulative_borrow_rate_snapshot % U64_MOD) ∧
    BorrowPosition.calculate_debt ⟨1000000, INTEREST_SCALE⟩ c6Market =
      .ok 2000000 := by
  refine ⟨?_, fun hle hfit => ?_, rfl⟩
  · simp only [BorrowPosition.calculate_debt]
    rw [checkedMul128_ok_of _ _ hmul]
    simp only []
    rw [checkedDiv_ok_of _ _ hsnap]
  · rw [Nat.mod_eq_of_lt hfit]
    calc p.borrowed_amount
        = p.borrowed_amount * p.cumulative_borrow_rate_snapshot /
            p.cumulative_borrow_rate_snapshot :=
          (Nat.mul_div_cancel _ (Nat.pos_of_ne_zero hsnap)).symm
      _ ≤ p.borrowed_amount * m.cumulative_borrow_rate /
            p.cumulative_borrow_rate_snapshot :=
          Nat.div_le_div_right (Nat.mul_le_mul_left _ hle)

/-- C6 witness: the amended theorem at the claim's concrete inputs. -/
theorem C6_debt_scaling_amended_witness :
    BorrowPosition.calculate_debt ⟨1000000, INTEREST_SCALE⟩ c6Market =
      .ok ((1000000 * c6Market.cumulative_borrow_rate /
            INTEREST_SCALE) % U64_MOD) :=
  (C6_debt_scaling_amended ⟨1000000, INTEREST_SCALE⟩ c6Market
    (by norm_num [INTEREST_SCALE])
    (by norm_num [c6Market, U128_MOD])).1

theorem checkedSub_err_of (a b : Nat) (h : a < b) :
    checkedSub a b = .error .MathOverflow := by
  unfold checkedSub; rw [if_neg (by omega)]

/-- The `as u64` cast of a non-negative in-range `i64` value is the value
itself. -/
theorem i64AsU64_toNat {d : Int} (h0 : 0 ≤ d) (hlt : d < I64_BOUND) :
    i64AsU64 d = d.toNat := by
  unfold i64AsU64 I64_BOUND at *
  omega

-- C10: repay edge behaviour

/-- C10: after a successful accrual, `repay::handler` fails with
`InvalidAmount` for a zero amount; for `0 < amount ≤ total_borrowed`
(post-accrual) it succeeds, adds the amount to the reserve vault and
subtracts exactly the amount from `total_borrowed`, changing no other
market field beyond the accrual's own effects; and for `amount >
total_borrowed` the checked subtraction fails with `MathOverflow` — no
dedicated over-repayment error and no clamping. -/
theorem C10_repay_edges (st : LState) (now : Int) (a : Nat) (m1 : Market)
    (hacc : accrue_interest st.market now = .ok m1)
    (hvault : st.vault + a < U64_MOD) :
    (a = 0 → repayH st now a = .error .InvalidAmount) ∧
    (a ≠ 0 → a ≤ m1.total_borrowed →
      repayH st now a =
        .ok ⟨{ m1 with total_borrowed := m1.total_borrowed - a },
             st.vault + a⟩) ∧
    (a ≠ 0 → m1.total_borrowed < a →
      repayH st now a = .error .MathOverflow) := by
  refine ⟨fun h0 => ?_, fun hne hle => ?_, fun hne hgt => ?_⟩
  · subst h0; simp [repayH]
  · simp only [repayH]
    rw [if_neg hne, hacc]
    simp only []
    rw [if_pos hvault, checkedSub_ok_of _ _ hle]
  · simp only [repayH]
    rw [if_neg hne, hacc]
    simp only []
    rw [if_pos hvault, checkedSub_err_of _ _ hgt]

/-- C10 witness: the three repay behaviours at a concrete state
(`total_borrowed = 1500000`, repay 1000000; the zero and over-repay limbs
instantiated at the same state). -/
theorem C10_repay_edges_witness :
    ((1000000 : Nat) = 0 →
      repayH c5Debt 0 1000000 = .error .InvalidAmount) ∧
    ((1000000 : Nat) ≠ 0 → 1000000 ≤ c5Debt.market.total_borrowed →
      repayH c5Debt 0 1000000 =
        .ok ⟨{ c5Debt.market with
                total_borrowed := c5Debt.market.total_borrowed - 1000000 },
             c5Debt.vault + 1000000⟩) ∧
    ((1000000 : Nat) ≠ 0 → c5Debt.market.total_borrowed < 1000000 →
      repayH c5Debt 0 1000000 = .error .MathOverflow) :=
  C10_repay_edges c5Debt 0 1000000 c5Debt.market rfl
    (by norm_num [c5Debt, U64_MOD])

-- C3: accrual postcondition

/-- C3 (amended): for a market with activity, a strictly positive elapsed
time and a successful accrual, the new cumulative indices are
`⌊old * (SCALE + ⌊rate * elapsed / SCALE⌋) / SCALE⌋` with the borrow and
supply rates computed by the rate model from the pre-accrual utilization,
the totals are `⌊total * new_index / SCALE⌋` reduced modulo 2^64 (the
`as u64` cast the claim omits), and the timestamp is set to the clock. -/
theorem C3_accrual_post (m : Market) (now : Int) (m2 : Market)
    (u br sr : Nat)
    (hne : ¬ (m.total_supplied = 0 ∧ m.total_borrowed = 0))
    (hpos : 0 < now - m.last_accrual_timestamp)
    (hu : calculate_utilization_rate m.total_borrowed m.total_supplied = .ok u)
    (hbr : calculate_borrow_rate u = .ok br)
    (hsr : calculate_supply_rate br u = .ok sr)
    (hok : accrue_interest m now = .ok m2) :
    m2.cumulative_borrow_rate =
      m.cumulative_borrow_rate *
        (INTEREST_SCALE +
          br * (now - m.last_accrual_timestamp).toNat / INTEREST_SCALE) /
        INTEREST_SCALE ∧
    m2.cumulative_supply_rate =
      m.cumulative_supply_rate *
        (INTEREST_SCALE +
          sr * (now - m.last_accrual_timestamp).toNat / INTEREST_SCALE) /
        INTEREST_SCALE ∧
    m2.total_borrowed =
      m.total_borrowed * m2.cumulative_borrow_rate / INTEREST_SCALE %
        U64_MOD ∧
    m2.total_supplied =
      m.total_supplied * m2.cumulative_supply_rate / INTEREST_SCALE %
        U64_MOD ∧
    m2.last_accrual_timestamp = now := by
  unfold accrue_interest at hok
  simp only [] at hok
  rw [if_neg hne] at hok
  rcases hd : checkedSubI64 now m.last_accrual_timestamp with e | d
  all_goals rw [hd] at hok
  · cases hok
  obtain ⟨⟨hd1, hd2⟩, hd3⟩ := checkedSubI64_eq_ok.mp hd
  subst hd3
  simp only [] at hok
  rw [i64AsU64_toNat (by omega) hd2] at hok
  rw [if_neg (by omega : ¬ (now - m.last_accrual_timestamp).toNat = 0)] at hok
  rw [hu] at hok
  simp only [] at hok
  rw [hbr] at hok
  simp only [] at hok
  rw [hsr] at hok
  simp only [] at hok
  rcases h1 : checkedMul128 br (now - m.last_accrual_timestamp).toNat
    with e | bfm
  all_goals rw [h1] at hok
  · cases hok
  simp only [] at hok
  rw [checkedDiv_ok_of _ _ (by norm_num [INTEREST_SCALE])] at hok
  simp only [] at hok
  rcases h2 : checkedMul128 m.cumulative_borrow_rate
      (INTEREST_SCALE + bfm / INTEREST_SCALE) with e | ncbm
  all_goals rw [h2] at hok
  · cases hok
  simp only [] at hok
  rw [checkedDiv_ok_of _ _ (by norm_num [INTEREST_SCALE])] at hok
  simp only [] at hok
  rcases h3 : checkedMul128 sr (now - m.last_accrual_timestamp).toNat
    with e | sfm
  all_goals rw [h3] at hok
  · cases hok
  simp only [] at hok
  rw [checkedDiv_ok_of _ _ (by norm_num [INTEREST_SCALE])] at hok
  simp only [] at hok
  rcases h4 : checkedMul128 m.cumulative_supply_rate
      (INTEREST_SCALE + sfm / INTEREST_SCALE) with e | ncsm
  all_goals rw [h4] at hok
  · cases hok
  simp only [] at hok
  rw [checkedDiv_ok_of _ _ (by norm_num [INTEREST_SCALE])] at hok
  simp only [] at hok
  rcases h5 : checkedMul128 m.total_borrowed (ncbm / INTEREST_SCALE)
    with e | tbm
  all_goals rw [h5] at hok
  · cases hok
  simp only [] at hok
  rw [checkedDiv_ok_of _ _ (by norm_num [INTEREST_SCALE])] at hok
  simp only [] at hok
  rcases h6 : checkedMul128 m.total_supplied (ncsm / INTEREST_SCALE)
    with e | tsm
  all_goals rw [h6] at hok
  · cases hok
  simp only [] at hok
  rw [checkedDiv_ok_of _ _ (by norm_num [INTEREST_SCALE])] at hok
  simp only [] at hok
  cases hok
  obtain ⟨hb1, hb2⟩ := checkedMul128_eq_ok.mp h1
  obtain ⟨hb3, hb4⟩ := checkedMul128_eq_ok.mp h2
  obtain ⟨hb5, hb6⟩ := checkedMul128_eq_ok.mp h3
  obtain ⟨hb7, hb8⟩ := checkedMul128_eq_ok.mp h4
  obtain ⟨hb9, hb10⟩ := checkedMul128_eq_ok.mp h5
  obtain ⟨hb11, hb12⟩ := checkedMul128_eq_ok.mp h6
  subst hb2; subst hb4; subst hb6; subst hb8; subst hb10; subst hb12
  exact ⟨rfl, rfl, rfl, rfl, rfl⟩

def c3Market : Market :=
  ⟨7500, 8500, 0, 9223372036854775808, 0, 0, 4000000000000000000,
    INTEREST_SCALE, false⟩

def c3After : Market :=
  ⟨7500, 8500, 0, 221, 0, 10000000000, 4000000000000000024,
    INTEREST_SCALE, false⟩

/-- C3, counterexample to the claim as stated.  On a market with principal
`2^63` and cumulative borrow index `4 * SCALE`, a successful accrual over
10^10 seconds computes `⌊2^63 * 4000000000000000024 / SCALE⌋ =
36893488147419103453`, but stores its `as u64` truncation `221` in
`total_borrowed` — not the floor value the claim states. -/
theorem C3_accrual_counterexample :
    accrue_interest c3Market 10000000000 = .ok c3After ∧
    c3After.total_borrowed = 221 ∧
    c3Market.total_borrowed * c3After.cumulative_borrow_rate /
        INTEREST_SCALE = 36893488147419103453 ∧
    (221 : Nat) ≠ 36893488147419103453 :=
  ⟨rfl, rfl, by norm_num [c3Market, c3After, INTEREST_SCALE], by norm_num⟩

def c3wAfter : Market :=
  ⟨7500, 8500, 1000000000, 0, 1000000000, 2000, INTEREST_SCALE,
    INTEREST_SCALE, false⟩

/-- C3 witness: the amended postcondition at a concrete market (supplied
10^9, borrowed 0) accrued from time 1000 to 2000. -/
theorem C3_accrual_post_witness :
    c3wAfter.cumulative_borrow_rate =
      c2Market.cumulative_borrow_rate *
        (INTEREST_SCALE +
          634195839 * ((2000 : Int) - c2Market.last_accrual_timestamp).toNat /
            INTEREST_SCALE) / INTEREST_SCALE ∧
    c3wAfter.cumulative_supply_rate =
      c2Market.cumulative_supply_rate *
        (INTEREST_SCALE +
          0 * ((2000 : Int) - c2Market.last_accrual_timestamp).toNat /
            INTEREST_SCALE) / INTEREST_SCALE ∧
    c3wAfter.total_borrowed =
      c2Market.total_borrowed * c3wAfter.cumulative_borrow_rate /
        INTEREST_SCALE % U64_MOD ∧
    c3wAfter.total_supplied =
      c2Market.total_supplied * c3wAfter.cumulative_supply_rate /
        INTEREST_SCALE % U64_MOD ∧
    c3wAfter.last_accrual_timestamp = 2000 :=
  C3_accrual_post c2Market 2000 c3wAfter 0 634195839 0
    (by decide) (by decide) rfl rfl rfl rfl

/-- The below-kink arm of `calculate_borrow_rate`. -/
def borrowRateBelow (u : Nat) : Nat :=
  BASE_RATE_PER_SECOND + SLOPE_1_PER_SECOND * u / OPTIMAL_UTILIZATION_BPS

/-- The above-kink arm of `calculate_borrow_rate`. -/
def borrowRateAbove (u : Nat) : Nat :=
  BASE_RATE_PER_SECOND + SLOPE_1_PER_SECOND +
    SLOPE_2_PER_SECOND *
      ((u - OPTIMAL_UTILIZATION_BPS) * INTEREST_SCALE /
        (BPS_SCALE - OPTIMAL_UTILIZATION_BPS)) / INTEREST_SCALE

theorem calculate_borrow_rate_ok_char (u r : Nat) (hu : u ≤ 10000)
    (h : calculate_borrow_rate u = .ok r) :
    r = if u ≤ OPTIMAL_UTILIZATION_BPS then borrowRateBelow u
        else borrowRateAbove u := by
  unfold calculate_borrow_rate at h
  by_cases hcase : u ≤ OPTIMAL_UTILIZATION_BPS
  · rw [if_pos hcase] at h
    rw [if_pos hcase]
    rcases h1 : checkedMul64 SLOPE_1_PER_SECOND u with e | m1
    all_goals rw [h1] at h
    · cases h
    simp only [] at h
    rw [checkedDiv_ok_of _ _ (by norm_num [OPTIMAL_UTILIZATION_BPS])] at h
    simp only [] at h
    obtain ⟨hb, hr⟩ := checkedAdd64_eq_ok.mp h
    obtain ⟨hm, hm2⟩ := checkedMul64_eq_ok.mp h1
    subst hm2
    subst hr
    rfl
  · rw [if_neg hcase] at h
    rw [if_neg hcase]
    have hex : u - OPTIMAL_UTILIZATION_BPS ≤ 2000 := by
      have ho : OPTIMAL_UTILIZATION_BPS = 8000 := rfl
      omega
    have hratio : (u - OPTIMAL_UTILIZATION_BPS) * INTEREST_SCALE /
        (BPS_SCALE - OPTIMAL_UTILIZATION_BPS) ≤ INTEREST_SCALE := by
      calc (u - OPTIMAL_UTILIZATION_BPS) * INTEREST_SCALE /
            (BPS_SCALE - OPTIMAL_UTILIZATION_BPS)
          ≤ 2000 * INTEREST_SCALE / (BPS_SCALE - OPTIMAL_UTILIZATION_BPS) :=
            Nat.div_le_div_right (Nat.mul_le_mul_right _ hex)
        _ = INTEREST_SCALE := by
            norm_num [INTEREST_SCALE, BPS_SCALE, OPTIMAL_UTILIZATION_BPS]
    have her : SLOPE_2_PER_SECOND *
        ((u - OPTIMAL_UTILIZATION_BPS) * INTEREST_SCALE /
          (BPS_SCALE - OPTIMAL_UTILIZATION_BPS)) / INTEREST_SCALE ≤
        SLOPE_2_PER_SECOND := by
      calc SLOPE_2_PER_SECOND *
            ((u - OPTIMAL_UTILIZATION_BPS) * INTEREST_SCALE /
              (BPS_SCALE - OPTIMAL_UTILIZATION_BPS)) / INTEREST_SCALE
          ≤ SLOPE_2_PER_SECOND * INTEREST_SCALE / INTEREST_SCALE :=
            Nat.div_le_div_right (Nat.mul_le_mul_left _ hratio)
        _ = SLOPE_2_PER_SECOND :=
            Nat.mul_div_cancel _ (by norm_num [INTEREST_SCALE])
    rcases h0 : checkedSub u OPTIMAL_UTILIZATION_BPS with e | excess
    all_goals rw [h0] at h
    · cases h
    simp only [] at h
    rcases h1 : checkedMul128 excess INTEREST_SCALE with e | m1
    all_goals rw [h1] at h
    · cases h
    simp only [] at h
    rw [checkedDiv_ok_of _ _
      (by norm_num [BPS_SCALE, OPTIMAL_UTILIZATION_BPS])] at h
    simp only [] at h
    rcases h2 : checkedMul128 SLOPE_2_PER_SECOND
        (m1 / (BPS_SCALE - OPTIMAL_UTILIZATION_BPS)) with e | m2
    all_goals rw [h2] at h
    · cases h
    simp only [] at h
    rw [checkedDiv_ok_of _ _ (by norm_num [INTEREST_SCALE])] at h
    simp only [] at h
    rw [checkedAdd64_ok_of _ _ (by norm_num [BASE_RATE_PER_SECOND,
      SLOPE_1_PER_SECOND, U64_MOD])] at h
    simp only [] at h
    obtain ⟨hs1, hs2⟩ := checkedSub_eq_ok.mp h0
    obtain ⟨hmm1, hmm2⟩ := checkedMul128_eq_ok.mp h1
    obtain ⟨hmm3, hmm4⟩ := checkedMul128_eq_ok.mp h2
    obtain ⟨ha1, ha2⟩ := checkedAdd64_eq_ok.mp h
    clear h0 h1 h2 h hs1 hmm1 hmm3 ha1
    rw [ha2, hmm4, hmm2, hs2]
    rw [Nat.mod_eq_of_lt
      (lt_of_le_of_lt her (by norm_num [SLOPE_2_PER_SECOND, U64_MOD]))]
    rfl

theorem borrowRatePure_mono (u1 u2 : Nat) (h : u1 ≤ u2) :
    (if u1 ≤ OPTIMAL_UTILIZATION_BPS then borrowRateBelow u1
     else borrowRateAbove u1) ≤
    (if u2 ≤ OPTIMAL_UTILIZATION_BPS then borrowRateBelow u2
     else borrowRateAbove u2) := by
  have hb1 : ∀ v, v ≤ OPTIMAL_UTILIZATION_BPS →
      borrowRateBelow v ≤ BASE_RATE_PER_SECOND + SLOPE_1_PER_SECOND := by
    intro v hv
    unfold borrowRateBelow
    have : SLOPE_1_PER_SECOND * v / OPTIMAL_UTILIZATION_BPS ≤
        SLOPE_1_PER_SECOND := by
      calc SLOPE_1_PER_SECOND * v / OPTIMAL_UTILIZATION_BPS
          ≤ SLOPE_1_PER_SECOND * OPTIMAL_UTILIZATION_BPS /
              OPTIMAL_UTILIZATION_BPS :=
            Nat.div_le_div_right (Nat.mul_le_mul_left _ hv)
        _ = SLOPE_1_PER_SECOND :=
            Nat.mul_div_cancel _ (by norm_num [OPTIMAL_UTILIZATION_BPS])
    omega
  by_cases hc1 : u1 ≤ OPTIMAL_UTILIZATION_BPS <;>
    by_cases hc2 : u2 ≤ OPTIMAL_UTILIZATION_BPS
  · rw [if_pos hc1, if_pos hc2]
    unfold borrowRateBelow
    exact Nat.add_le_add_left
      (Nat.div_le_div_right (Nat.mul_le_mul_left _ h)) _
  · rw [if_pos hc1, if_neg hc2]
    calc borrowRateBelow u1
        ≤ BASE_RATE_PER_SECOND + SLOPE_1_PER_SECOND := hb1 u1 hc1
      _ ≤ borrowRateAbove u2 := Nat.le_add_right _ _
  · omega
  · rw [if_neg hc1, if_neg hc2]
    unfold borrowRateAbove
    exact Nat.add_le_add_left
      (Nat.div_le_div_right (Nat.mul_le_mul_left _
        (Nat.div_le_div_right (Nat.mul_le_mul_right _
          (Nat.sub_le_sub_right h _))))) _

/-- C7: over the domain [0, 10000] the borrow-rate curve is monotone
non-decreasing; the two branch formulas agree at the kink (both equal
`BASE_RATE + SLOPE1` at `OPTIMAL_UTILIZATION_BPS`); and the computed rates
at 7999, 8000 and 8001 differ by at most one quantization step of the
respective branch slope (`⌊SLOPE1/8000⌋ + 1` below, `⌊SLOPE2/2000⌋ + 1`
above). -/
theorem C7_rate_curve (u1 u2 r1 r2 : Nat) (h12 : u1 ≤ u2)
    (hu2 : u2 ≤ 10000)
    (h1 : calculate_borrow_rate u1 = .ok r1)
    (h2 : calculate_borrow_rate u2 = .ok r2) :
    r1 ≤ r2 ∧
    borrowRateBelow OPTIMAL_UTILIZATION_BPS =
      BASE_RATE_PER_SECOND + SLOPE_1_PER_SECOND ∧
    borrowRateAbove OPTIMAL_UTILIZATION_BPS =
      BASE_RATE_PER_SECOND + SLOPE_1_PER_SECOND ∧
    calculate_borrow_rate 7999 = .ok 3804778662 ∧
    calculate_borrow_rate 8000 = .ok 3805175035 ∧
    calculate_borrow_rate 8001 = .ok 3821029930 ∧
    3805175035 - 3804778662 ≤
      SLOPE_1_PER_SECOND / OPTIMAL_UTILIZATION_BPS + 1 ∧
    3821029930 - 3805175035 ≤
      SLOPE_2_PER_SECOND / (BPS_SCALE - OPTIMAL_UTILIZATION_BPS) + 1 := by
  refine ⟨?_, by decide, by decide, rfl, rfl, rfl, by decide, by decide⟩
  rw [calculate_borrow_rate_ok_char u1 r1 (le_trans h12 hu2) h1,
    calculate_borrow_rate_ok_char u2 r2 hu2 h2]
  exact borrowRatePure_mono u1 u2 h12

/-- C7 witness: the curve theorem across the kink, at utilizations 7999
and 8001. -/
theorem C7_rate_curve_witness :
    (3804778662 : Nat) ≤ 3821029930 ∧
    borrowRateBelow OPTIMAL_UTILIZATION_BPS =
      BASE_RATE_PER_SECOND + SLOPE_1_PER_SECOND ∧
    borrowRateAbove OPTIMAL_UTILIZATION_BPS =
      BASE_RATE_PER_SECOND + SLOPE_1_PER_SECOND ∧
    calculate_borrow_rate 7999 = .ok 3804778662 ∧
    calculate_borrow_rate 8000 = .ok 3805175035 ∧
    calculate_borrow_rate 8001 = .ok 3821029930 ∧
    3805175035 - 3804778662 ≤
      SLOPE_1_PER_SECOND / OPTIMAL_UTILIZATION_BPS + 1 ∧
    3821029930 - 3805175035 ≤
      SLOPE_2_PER_SECOND / (BPS_SCALE - OPTIMAL_UTILIZATION_BPS) + 1 :=
  C7_rate_curve 7999 8001 3804778662 3821029930 (by norm_num)
    (by norm_num) rfl rfl

-- C8: supply/withdraw round trip

/-- Core floor-division bounds for the mint/burn round trip: minting
`m = ⌊a·S/R⌋` shares at rate `R = ⌊s·S/T⌋` and burning them at the
post-supply rate `E = ⌊(s+a)·S/(T+m)⌋` returns `⌊m·E/S⌋`, which never
exceeds `a` (when `T ≤ S`) and falls short of `a` by at most
`⌊R/S⌋ + 1` units. -/
theorem mint_burn_bounds (s T a m R E : Nat)
    (hT : 1 ≤ T) (hTS : T ≤ INTEREST_SCALE)
    (hR : R = s * INTEREST_SCALE / T) (hR0 : R ≠ 0)
    (hm : m = a * INTEREST_SCALE / R) (hm0 : 0 < m)
    (hE : E = (s + a) * INTEREST_SCALE / (T + m)) :
    m * E / INTEREST_SCALE ≤ a ∧
    a ≤ m * E / INTEREST_SCALE + R / INTEREST_SCALE + 1 := by
  have hSpos : 0 < INTEREST_SCALE := by norm_num [INTEREST_SCALE]
  have hTm : 0 < T + m := by omega
  have key1 : R * T ≤ s * INTEREST_SCALE := by
    rw [hR]; exact Nat.div_mul_le_self _ _
  have hrho : s * INTEREST_SCALE < R * T + T := by
    rw [hR]; exact Nat.lt_div_mul_add hT
  have key2 : m * R ≤ a * INTEREST_SCALE := by
    rw [hm]; exact Nat.div_mul_le_self _ _
  have hmR : a * INTEREST_SCALE < m * R + R := by
    rw [hm]; exact Nat.lt_div_mul_add (Nat.pos_of_ne_zero hR0)
  have key3 : E * (T + m) ≤ (s + a) * INTEREST_SCALE := by
    rw [hE]; exact Nat.div_mul_le_self _ _
  have hupper : m * E < (a + 1) * INTEREST_SCALE := by
    by_contra hcon
    push_neg at hcon
    have e1 : (a + 1) * INTEREST_SCALE * (T + m) ≤ m * E * (T + m) :=
      Nat.mul_le_mul_right _ hcon
    have e2 : m * E * (T + m) ≤ m * ((s + a) * INTEREST_SCALE) := by
      calc m * E * (T + m) = m * (E * (T + m)) := by ring
        _ ≤ m * ((s + a) * INTEREST_SCALE) := Nat.mul_le_mul_left _ key3
    have e4 : m * (s * INTEREST_SCALE) < m * (R * T) + m * T := by
      calc m * (s * INTEREST_SCALE) < m * (R * T + T) :=
            Nat.mul_lt_mul_of_le_of_lt (le_refl m) hrho hm0
        _ = m * (R * T) + m * T := by ring
    have e5 : m * (R * T) ≤ a * INTEREST_SCALE * T := by
      calc m * (R * T) = m * R * T := by ring
        _ ≤ a * INTEREST_SCALE * T := Nat.mul_le_mul_right _ key2
    have e6 : m * T ≤ m * INTEREST_SCALE := Nat.mul_le_mul_left _ hTS
    nlinarith [e1, e2, e4, e5, e6, hSpos, hT]
  have key4 : R ≤ E := by
    rw [hE]
    rw [Nat.le_div_iff_mul_le hTm]
    calc R * (T + m) = R * T + R * m := by ring
      _ ≤ s * INTEREST_SCALE + a * INTEREST_SCALE := by
          have h1 : R * m ≤ a * INTEREST_SCALE := by
            calc R * m = m * R := by ring
              _ ≤ a * INTEREST_SCALE := key2
          omega
      _ = (s + a) * INTEREST_SCALE := by ring
  have hw1 : m * R ≤ m * E := Nat.mul_le_mul_left _ key4
  generalize hME : m * E = ME at hupper hw1 ⊢
  generalize hMR : m * R = MR at hw1 hmR
  have hIS : INTEREST_SCALE = 1000000000000000000 := rfl
  rw [hIS] at hupper hmR ⊢
  omega

theorem calculate_exchange_rate_ok_char (s T R0 : Nat) (hT : T ≠ 0)
    (h : calculate_exchange_rate s T = .ok R0) :
    R0 = s * INTEREST_SCALE / T := by
  unfold calculate_exchange_rate at h
  rw [if_neg hT] at h
  rcases h1 : checkedMul128 s INTEREST_SCALE with e | t
  all_goals rw [h1] at h
  · cases h
  obtain ⟨hm1, hm2⟩ := checkedMul128_eq_ok.mp h1
  obtain ⟨hd1, hd2⟩ := checkedDiv_eq_ok.mp h
  subst hm2
  subst hd2
  rfl

/-- Inversion of a successful constant-time `supply::handler` call on a
market that already has supply shares. -/
theorem supplyH_ok_char (st : LState) (a : Nat) (st1 : LState) (mt : Nat)
    (hT : st.market.total_supply_tokens ≠ 0)
    (h : supplyH st st.market.last_accrual_timestamp a = .ok (st1, mt)) :
    st.market.total_supplied * INTEREST_SCALE /
      st.market.total_supply_tokens ≠ 0 ∧
    st.market.total_supplied + a < U64_MOD ∧
    mt = (a * INTEREST_SCALE /
      (st.market.total_supplied * INTEREST_SCALE /
        st.market.total_supply_tokens)) % U64_MOD ∧
    st1 = ⟨{ st.market with
              total_supplied := st.market.total_supplied + a
              total_supply_tokens := st.market.total_supply_tokens + mt },
           st.vault + a⟩ := by
  unfold supplyH at h
  rw [accrue_last] at h
  simp only [] at h
  split at h
  case isTrue => cases h
  split at h
  case isTrue => cases h
  split at h
  case isFalse => cases h
  rcases hxr : calculate_exchange_rate st.market.total_supplied
      st.market.total_supply_tokens with e | R0
  all_goals rw [hxr] at h
  · cases h
  simp only [] at h
  have hR0 : R0 = st.market.total_supplied * INTEREST_SCALE /
      st.market.total_supply_tokens :=
    calculate_exchange_rate_ok_char _ _ _ hT hxr
  rcases h1 : checkedMul128 a INTEREST_SCALE with e | t1
  all_goals rw [h1] at h
  · cases h
  simp only [] at h
  rcases h2 : checkedDiv t1 R0 with e | t2
  all_goals rw [h2] at h
  · cases h
  simp only [] at h
  rcases h3 : checkedAdd64 st.market.total_supplied a with e | s2
  all_goals rw [h3] at h
  · cases h
  simp only [] at h
  rcases h4 : checkedAdd64 st.market.total_supply_tokens (t2 % U64_MOD)
    with e | T2
  all_goals rw [h4] at h
  · cases h
  simp only [] at h
  cases h
  obtain ⟨hm1, hm2⟩ := checkedMul128_eq_ok.mp h1
  obtain ⟨hd1, hd2⟩ := checkedDiv_eq_ok.mp h2
  obtain ⟨ha1, ha2⟩ := checkedAdd64_eq_ok.mp h3
  obtain ⟨hb1, hb2⟩ := checkedAdd64_eq_ok.mp h4
  subst hm2
  subst hd2
  subst ha2
  subst hb2
  rw [← hR0]
  exact ⟨hd1, ha1, rfl, rfl⟩

/-- Inversion of a successful constant-time `withdraw::handler` call: the
burned share count is positive and the paid-out amount is `⌊shares *
exchange_rate / SCALE⌋` (truncated `as u64`). -/
theorem withdrawH_ok_amount (st : LState) (x : Nat) (st2 : LState) (w : Nat)
    (hT : st.market.total_supply_tokens ≠ 0)
    (h : withdrawH st st.market.last_accrual_timestamp x = .ok (st2, w)) :
    x ≠ 0 ∧
    w = (x * (st.market.total_supplied * INTEREST_SCALE /
          st.market.total_supply_tokens) / INTEREST_SCALE) % U64_MOD := by
  unfold withdrawH at h
  rw [accrue_last] at h
  simp only [] at h
  split at h
  case isTrue => cases h
  rcases hxr : calculate_exchange_rate st.market.total_supplied
      st.market.total_supply_tokens with e | R0
  all_goals rw [hxr] at h
  · cases h
  simp only [] at h
  have hR0 : R0 = st.market.total_supplied * INTEREST_SCALE /
      st.market.total_supply_tokens :=
    calculate_exchange_rate_ok_char _ _ _ hT hxr
  rcases h1 : checkedMul128 x R0 with e | w1
  all_goals rw [h1] at h
  · cases h
  simp only [] at h
  rw [checkedDiv_ok_of _ _ (by norm_num [INTEREST_SCALE])] at h
  simp only [] at h
  split at h
  case isTrue => cases h
  rcases h2 : checkedSub st.market.total_supplied (w1 / INTEREST_SCALE % U64_MOD)
    with e | s2
  all_goals rw [h2] at h
  · cases h
  simp only [] at h
  rcases h3 : checkedSub st.market.total_supply_tokens x with e | T2
  all_goals rw [h3] at h
  · cases h
  simp only [] at h
  cases h
  obtain ⟨hm1, hm2⟩ := checkedMul128_eq_ok.mp h1
  subst hm2
  have hx : ¬ x = 0 := by assumption
  refine ⟨hx, ?_⟩
  rw [hR0]

/-- C8 (amended): supplying `a` at the market's current timestamp and
immediately withdrawing all minted shares never pays out more than `a`,
but the floor-rounding loss is bounded by one unit of per-share value
(`⌊exchange_rate/SCALE⌋ + 1`), not by 1 — provided the market has shares
outstanding (`1 ≤ total_supply_tokens ≤ SCALE`) and the minted share
count does not overflow the `u64` cast. -/
theorem C8_roundtrip_amended (st st1 st2 : LState) (a mt w : Nat)
    (hT1 : 1 ≤ st.market.total_supply_tokens)
    (hTS : st.market.total_supply_tokens ≤ INTEREST_SCALE)
    (hfit : a * INTEREST_SCALE /
        (st.market.total_supplied * INTEREST_SCALE /
          st.market.total_supply_tokens) < U64_MOD)
    (hsup : supplyH st st.market.last_accrual_timestamp a = .ok (st1, mt))
    (hwd : withdrawH st1 st.market.last_accrual_timestamp mt = .ok (st2, w)) :
    w ≤ a ∧
    a ≤ w + (st.market.total_supplied * INTEREST_SCALE /
        st.market.total_supply_tokens) / INTEREST_SCALE + 1 := by
  obtain ⟨hR0, hsa, hmt, hst1⟩ := supplyH_ok_char st a st1 mt (by omega) hsup
  rw [Nat.mod_eq_of_lt hfit] at hmt
  subst hst1
  obtain ⟨hx, hw⟩ :=
    withdrawH_ok_amount _ mt st2 w (by dsimp only; omega) hwd
  dsimp only [] at hw
  obtain ⟨hub, hlb⟩ := mint_burn_bounds st.market.total_supplied
    st.market.total_supply_tokens a mt
    (st.market.total_supplied * INTEREST_SCALE /
      st.market.total_supply_tokens)
    ((st.market.total_supplied + a) * INTEREST_SCALE /
      (st.market.total_supply_tokens + mt))
    hT1 hTS rfl hR0 hmt (Nat.pos_of_ne_zero hx) rfl
  rw [Nat.mod_eq_of_lt (by omega :
    mt * ((st.market.total_supplied + a) * INTEREST_SCALE /
      (st.market.total_supply_tokens + mt)) / INTEREST_SCALE < U64_MOD)] at hw
  subst hw
  exact ⟨hub, hlb⟩

def c8Pre : LState :=
  ⟨⟨7500, 8500, 205500003804, 0, 115729056419, 5, INTEREST_SCALE,
    INTEREST_SCALE, false⟩, 205500003804⟩

def c8Mid : LState :=
  ⟨⟨7500, 8500, 205731386808, 0, 115859361704, 5, INTEREST_SCALE,
    INTEREST_SCALE, false⟩, 205731386808⟩

def c8End : LState :=
  ⟨⟨7500, 8500, 205500003806, 0, 115729056419, 5, INTEREST_SCALE,
    INTEREST_SCALE, false⟩, 205500003806⟩

/-- C8, counterexample to the claim's "at most 1 unit lost": on a market
with supplied 205500003804 and 115729056419 shares (exchange rate ≈
1.7757), supplying 231383004 mints 130305285 shares, and immediately
burning them returns 231383002 — two units short, violating
`amount - 1 ≤ a`.  The floor loss scales with the per-share value, not
with 1. -/
theorem C8_roundtrip_counterexample :
    supplyH c8Pre 5 231383004 = .ok (c8Mid, 130305285) ∧
    withdrawH c8Mid 5 130305285 = .ok (c8End, 231383002) ∧
    ¬ (231383004 - 1 ≤ 231383002) :=
  ⟨rfl, rfl, by norm_num⟩

def c8w : LState :=
  ⟨⟨7500, 8500, 100000000, 0, 100000000, 0, INTEREST_SCALE,
    INTEREST_SCALE, false⟩, 100000000⟩

def c8wMid : LState :=
  ⟨⟨7500, 8500, 200000000, 0, 200000000, 0, INTEREST_SCALE,
    INTEREST_SCALE, false⟩, 200000000⟩

def c8wEnd : LState :=
  ⟨⟨7500, 8500, 100000000, 0, 100000000, 0, INTEREST_SCALE,
    INTEREST_SCALE, false⟩, 100000000⟩

/-- C8 witness: the amended round-trip bounds on a 1:1-rate market,
supplying and withdrawing 10^8 units. -/
theorem C8_roundtrip_amended_witness :
    (100000000 : Nat) ≤ 100000000 ∧
    (100000000 : Nat) ≤ 100000000 +
      (c8w.market.total_supplied * INTEREST_SCALE /
        c8w.market.total_supply_tokens) / INTEREST_SCALE + 1 :=
  C8_roundtrip_amended c8w c8wMid c8wEnd 100000000 100000000 100000000
    (by norm_num [c8w]) (by norm_num [c8w, INTEREST_SCALE])
    (by norm_num [c8w, INTEREST_SCALE, U64_MOD]) rfl rfl

end Lending
